import Mathlib

/-!
Verification development for the Video-Tagger repository.

The Python sources are shallowly embedded: pure functions become Lean
functions, the sqlite-backed `Database` class becomes explicit state
passing over a `DB` structure, Qt model/widget state becomes explicit
record updates.  `datetime` values are modelled as integer timestamps,
byte sizes and ratings as integers, `None` as `Option`.

String helpers are implemented over `List Char` so that every definition
reduces by kernel computation (`decide` / `rfl` on concrete inputs).
-/

/-- Split a character list at every occurrence of `c`
(model of Python `str.split(sep)`: always returns at least one chunk). -/
def splitOnChar (c : Char) : List Char → List (List Char)
  | [] => [[]]
  | x :: xs =>
    match splitOnChar c xs with
    | [] => [[x]]
    | h :: t => if x = c then [] :: h :: t else (x :: h) :: t

/-- Model of Python `str.lower()` / `re.IGNORECASE` case folding,
restricted to the ASCII range handled by `Char.toLower`. -/
def lowerChars (l : List Char) : List Char := l.map Char.toLower

/-- Substring search on character lists: true iff `pat` occurs in `s` as a
contiguous subsequence.  An empty `pat` is found in every `s`. -/
def subSearch (pat : List Char) : List Char → Bool
  | [] => pat.isEmpty
  | c :: rest => pat.isPrefixOf (c :: rest) || subSearch pat rest

/-- `VideoFile` from `VideoFile.py`.  `tags: set[str]` is modelled as a
`List String` used only through membership (Python set semantics);
`date_modified` is an integer timestamp, `duration` an optional number. -/
structure VideoFile where
  id : Int
  path : String
  size : Int
  date_modified : Int
  duration : Option Int := none
  rating : Option Int := none
  tags : List String := []
  deriving DecidableEq, Repr, Inhabited

/-- `VideoFile.name`: `os.path.basename(self.path)` — the part of the path
after the last slash. -/
def VideoFile.name (f : VideoFile) : String :=
  String.mk ((splitOnChar '/' f.path.data).getLastD [])

/-- The source property `name_prefix` in `VideoFile.py`:
`self.name.split('.')[0]` — the part of the basename before its FIRST dot. -/
def VideoFile.nameSplitHead (f : VideoFile) : String :=
  String.mk ((splitOnChar '.' (VideoFile.name f).data).headD [])

/-- `sys.maxsize` on a 64-bit platform. -/
def sysMaxsize : Int := 2 ^ 63 - 1

/-- Stand-in timestamp for Python `datetime.min`. -/
def datetimeMinTs : Int := -(2 ^ 62)

/-- Stand-in timestamp for Python `datetime.max`. -/
def datetimeMaxTs : Int := 2 ^ 62

/-- `FileFilter` dataclass from `Ui/FileSortFilterProxyModel.py` with its
default field values.  Tag sets are `List String` used through membership. -/
structure FileFilter where
  name_regex : String := ""
  name_regex_case_sensitive : Bool := false
  path : String := ""
  rating : Int × Int := (0, 5)
  tags_whitelist : List String := []
  tags_blacklist : List String := []
  size : Int × Int := (0, sysMaxsize)
  date : Int × Int := (datetimeMinTs, datetimeMaxTs)
  deriving DecidableEq, Repr, Inhabited

/-- Model of `re.compile(pat, re.IGNORECASE unless case-sensitive).search(s)`
returning whether a match was found, restricted to literal patterns
(no regex metacharacters): `re.search` then succeeds exactly when the
pattern occurs in `s` as a contiguous substring. -/
def reSearchFound (pat : String) (caseSensitive : Bool) (s : String) : Bool :=
  if caseSensitive then subSearch pat.data s.data
  else subSearch (lowerChars pat.data) (lowerChars s.data)

/-- The name-regex clause of `filterAcceptsRow`:
`self._re.search(file_object.name_prefix) is None` negated, where `self._re`
is compiled from the filter in the `filter` setter. -/
def nameCheck (flt : FileFilter) (f : VideoFile) : Bool :=
  reSearchFound flt.name_regex flt.name_regex_case_sensitive (VideoFile.nameSplitHead f)

/-- The path clause: `self._filter.path and not file_object.path.startswith(...)`
negated. -/
def pathCheck (flt : FileFilter) (f : VideoFile) : Bool :=
  flt.path = "" || flt.path.data.isPrefixOf f.path.data

/-- The rating clause: `rating = file_object.rating or 0` (absent → 0),
rejected when outside the inclusive range. -/
def ratingCheck (flt : FileFilter) (f : VideoFile) : Bool :=
  !(f.rating.getD 0 < flt.rating.1 || f.rating.getD 0 > flt.rating.2)

/-- The whitelist clause: reject when the whitelist is non-empty and is not a
subset of the file's tag set (`issubset`). -/
def whitelistCheck (flt : FileFilter) (f : VideoFile) : Bool :=
  !(!flt.tags_whitelist.isEmpty && !(flt.tags_whitelist.all (fun t => decide (t ∈ f.tags))))

/-- The blacklist clause: reject when the blacklist is non-empty and its
intersection with the file's tag set is non-empty. -/
def blacklistCheck (flt : FileFilter) (f : VideoFile) : Bool :=
  !(!flt.tags_blacklist.isEmpty && flt.tags_blacklist.any (fun t => decide (t ∈ f.tags)))

/-- The size clause: inclusive range on the raw byte count. -/
def sizeCheck (flt : FileFilter) (f : VideoFile) : Bool :=
  !(f.size < flt.size.1 || f.size > flt.size.2)

/-- The date clause: inclusive range on the modification timestamp. -/
def dateCheck (flt : FileFilter) (f : VideoFile) : Bool :=
  !(f.date_modified < flt.date.1 || f.date_modified > flt.date.2)

/-- `FileSortFilterProxyModel.filterAcceptsRow`, as the sequence of
early-return checks in source order.  `cur` is `self._current_file`
(the pinned current file); the first check is
`if file_object == self._current_file: return True`. -/
def filterAcceptsRow (flt : FileFilter) (cur : Option VideoFile) (f : VideoFile) : Bool :=
  if some f = cur then true
  else if !(nameCheck flt f) then false
  else if !(pathCheck flt f) then false
  else if !(ratingCheck flt f) then false
  else if !(whitelistCheck flt f) then false
  else if !(blacklistCheck flt f) then false
  else if !(sizeCheck flt f) then false
  else if !(dateCheck flt f) then false
  else true

/-- Lexicographic order on character lists by code point (model of the
string comparison Qt applies when the default
`QSortFilterProxyModel.lessThan` compares two display strings). -/
def charListLT : List Char → List Char → Bool
  | [], [] => false
  | [], _ :: _ => true
  | _ :: _, [] => false
  | a :: as, b :: bs =>
    if a.toNat < b.toNat then true
    else if b.toNat < a.toNat then false
    else charListLT as bs

/-- Modelled from the spec: `humanfriendly.format_size` (third-party library,
not in the repository) renders a byte count with 1000-based units —
`"500 bytes"`, `"2 KB"`, `"100 KB"`.  Fractional rounding of non-multiples
is elided; every input used below is an exact multiple of its unit. -/
def format_size (n : Int) : String :=
  if n < 1000 then toString n ++ " bytes"
  else if n < 1000000 then toString (n / 1000) ++ " KB"
  else if n < 1000000000 then toString (n / 1000000) ++ " MB"
  else toString (n / 1000000000) ++ " GB"

/-- `FileListModel.horizontal_header_labels`. -/
def horizontal_header_labels : List String :=
  ["Name", "Rating", "Tags", "Size", "Modified", "Duration"]

/-- The `DisplayRole` text of `FileListModel.data` for one file and column.
Column 3 (Size) is `humanfriendly.format_size(file.size)`; the other
columns are stringified stand-ins (only columns 1 and 3 are consulted by
the theorems below). -/
def displayText (f : VideoFile) (col : Nat) : String :=
  match col with
  | 0 => VideoFile.nameSplitHead f
  | 1 => match f.rating with
         | some r => toString r
         | none => ""
  | 2 => toString f.tags.length
  | 3 => format_size f.size
  | 4 => toString f.date_modified
  | 5 => match f.duration with
         | some d => toString d
         | none => "None"
  | _ => ""

/-- Default `QSortFilterProxyModel.lessThan`: compares the display data of
the two rows at the sort column (string comparison for string data). -/
def qtDefaultLessThan (col : Nat) (files : List VideoFile) (l r : Nat) : Bool :=
  charListLT (displayText (files.getD l default) col).data
             (displayText (files.getD r default) col).data

/-- `FileSortFilterProxyModel.lessThan`: the raw byte-count comparison is
applied only when `self.sortColumn() != 1` fails, i.e. only for column 1;
every other column, including column 3 where `FileListModel` displays the
size, falls back to the default display-data comparison. -/
def proxyLessThan (sortColumn : Nat) (files : List VideoFile) (l r : Nat) : Bool :=
  if sortColumn ≠ 1 then qtDefaultLessThan sortColumn files l r
  else decide ((files.getD l default).size < (files.getD r default).size)

/-- A row of the `files` table in `Database.py`. -/
structure FileRow where
  id : Nat
  path : String
  size : Int
  date_modified : Int
  duration : Option Int := none
  rating : Option Int := none
  deriving DecidableEq, Repr, Inhabited

/-- A row of the `tags` table. -/
structure TagRow where
  id : Nat
  name : String
  deriving DecidableEq, Repr, Inhabited

/-- The sqlite database state of `Database.py`: the three tables plus the
next AUTOINCREMENT ids (sqlite `lastrowid`).  `file_has_tag` rows are
`(file_id, tag_id)` pairs. -/
structure DB where
  files : List FileRow := []
  tags : List TagRow := []
  file_has_tag : List (Nat × Nat) := []
  nextFileId : Nat := 1
  nextTagId : Nat := 1
  deriving DecidableEq, Repr, Inhabited

/-- `Database.get_tag_id`: `SELECT id FROM tags WHERE name = ?`, first
matching row or `None`. -/
def get_tag_id (db : DB) (tag : String) : Option Nat :=
  (db.tags.find? (fun t => t.name = tag)).map TagRow.id

/-- `Database.set_tag`: look the tag up, insert a fresh tag row when absent,
then insert the `(file_id, tag_id)` association unless it already exists. -/
def set_tag (db : DB) (file_id : Nat) (tag : String) : DB :=
  match get_tag_id db tag with
  | some tag_id =>
    if (file_id, tag_id) ∈ db.file_has_tag then db
    else { db with file_has_tag := db.file_has_tag ++ [(file_id, tag_id)] }
  | none =>
    let tag_id := db.nextTagId
    let db1 := { db with tags := db.tags ++ [⟨tag_id, tag⟩],
                         nextTagId := db.nextTagId + 1 }
    if (file_id, tag_id) ∈ db1.file_has_tag then db1
    else { db1 with file_has_tag := db1.file_has_tag ++ [(file_id, tag_id)] }

/-- `Database.remove_tag`: no-op when the tag name is unknown, otherwise
delete every `(file_id, tag_id)` association row. -/
def remove_tag (db : DB) (file_id : Nat) (tag : String) : DB :=
  match get_tag_id db tag with
  | none => db
  | some tag_id =>
    { db with file_has_tag :=
        db.file_has_tag.filter (fun p => !(p.1 = file_id && p.2 = tag_id)) }

/-- The tag-name set of one file as materialized by `Database.get_file`
(`SELECT name FROM tags INNER JOIN file_has_tag ...`), used through
membership (Python builds a set from it). -/
def fileTagNames (db : DB) (file_id : Nat) : List String :=
  (db.tags.filter (fun t => decide ((file_id, t.id) ∈ db.file_has_tag))).map TagRow.name

/-- The usage count `Database.get_tags` reports for one tag name
(`COUNT(file_has_tag.tag_id)` grouped by tag row; under distinct tag names
this is the count of associations of the row `get_tag_id` resolves;
`0` models a name absent from the returned mapping). -/
def tag_usage (db : DB) (tag : String) : Nat :=
  match get_tag_id db tag with
  | none => 0
  | some tag_id => (db.file_has_tag.filter (fun p => p.2 = tag_id)).length

/-- `Database.add_file`: return `-1` when a row with the same path exists,
otherwise insert the file row, attach every tag of the file via `set_tag`
(auto-creating unknown tags) and return the new row id. -/
def add_file (db : DB) (f : VideoFile) : DB × Int :=
  if db.files.any (fun r => r.path = f.path) then (db, -1)
  else
    let fid := db.nextFileId
    let db1 := { db with
      files := db.files ++ [⟨fid, f.path, f.size, f.date_modified, f.duration, f.rating⟩],
      nextFileId := fid + 1 }
    (f.tags.foldl (fun d t => set_tag d fid t) db1, (fid : Int))

/-- Tag ids of the rows whose name occurs in `names`
(`SELECT id FROM tags WHERE name IN (...)`, read element-wise). -/
def tagIdsNamedIn (db : DB) (names : List String) : List Nat :=
  (db.tags.filter (fun t => decide (t.name ∈ names))).map TagRow.id

/-- File ids holding at least one tag whose name occurs in `names`
(`SELECT file_id FROM file_has_tag WHERE tag_id IN (...)`). -/
def fileIdsWithTagIn (db : DB) (names : List String) : List Nat :=
  (db.file_has_tag.filter (fun p => decide (p.2 ∈ tagIdsNamedIn db names))).map Prod.fst

/-- `Database.get_files_with_tags`: the SQL selects files whose id is IN the
set of files holding a whitelist-named tag and NOT IN the set of files
holding a blacklist-named tag.  The `IN (?)` placeholders are read
element-wise (the generous reading; as written the Python binds the whole
iterable to one placeholder).  Returns the selected file ids. -/
def get_files_with_tags (db : DB) (whitelist blacklist : List String) : List Nat :=
  (db.files.filter (fun f =>
    decide (f.id ∈ fileIdsWithTagIn db whitelist) &&
    !decide (f.id ∈ fileIdsWithTagIn db blacklist))).map FileRow.id

/-- The `tags_whitelist` property setter of `FilterWidget` (value part: widget
sync and signal emission are modelled separately): assign only when the new
set differs. -/
def set_tags_whitelist (flt : FileFilter) (l : List String) : FileFilter :=
  if flt.tags_whitelist ≠ l then { flt with tags_whitelist := l } else flt

/-- The `tags_blacklist` property setter of `FilterWidget`. -/
def set_tags_blacklist (flt : FileFilter) (l : List String) : FileFilter :=
  if flt.tags_blacklist ≠ l then { flt with tags_blacklist := l } else flt

/-- `FilterWidget.tag_in_whitelist`. -/
def tag_in_whitelist (flt : FileFilter) (tag : String) : Bool :=
  decide (tag ∈ flt.tags_whitelist)

/-- `FilterWidget.tag_in_blacklist`. -/
def tag_in_blacklist (flt : FileFilter) (tag : String) : Bool :=
  decide (tag ∈ flt.tags_blacklist)

/-- Python set union `s | {tag}` on a membership-list. -/
def unionTag (l : List String) (tag : String) : List String :=
  if tag ∈ l then l else l ++ [tag]

/-- Python set difference `s - {tag}` on a membership-list. -/
def diffTag (l : List String) (tag : String) : List String :=
  l.filter (fun t => t ≠ tag)

mutual

/-- `FilterWidget.set_tag_in_whitelist`: when turning a tag on, add it to the
whitelist and then force it out of the blacklist; when turning it off,
remove it from the whitelist; no-op when the state already matches. -/
def set_tag_in_whitelist (flt : FileFilter) (tag : String) (inWl : Bool) : FileFilter :=
  if inWl ≠ tag_in_whitelist flt tag then
    if inWl then
      set_tag_in_blacklist
        (set_tags_whitelist flt (unionTag flt.tags_whitelist tag)) tag false
    else
      set_tags_whitelist flt (diffTag flt.tags_whitelist tag)
  else flt
termination_by (cond inWl 1 0)

/-- `FilterWidget.set_tag_in_blacklist`, symmetric to the whitelist case. -/
def set_tag_in_blacklist (flt : FileFilter) (tag : String) (inBl : Bool) : FileFilter :=
  if inBl ≠ tag_in_blacklist flt tag then
    if inBl then
      set_tag_in_whitelist
        (set_tags_blacklist flt (unionTag flt.tags_blacklist tag)) tag false
    else
      set_tags_blacklist flt (diffTag flt.tags_blacklist tag)
  else flt
termination_by (cond inBl 1 0)

end

/-- One user interaction with the two tag-list widgets. -/
inductive WBOp where
  | wl (tag : String) (b : Bool)
  | bl (tag : String) (b : Bool)
  deriving DecidableEq, Repr

/-- Apply one whitelist/blacklist interaction. -/
def applyWBOp (flt : FileFilter) : WBOp → FileFilter
  | .wl t b => set_tag_in_whitelist flt t b
  | .bl t b => set_tag_in_blacklist flt t b

/-- Apply a sequence of whitelist/blacklist interactions. -/
def applyWBOps (flt : FileFilter) (ops : List WBOp) : FileFilter :=
  ops.foldl applyWBOp flt

/-- No tag sits in both the whitelist and the blacklist. -/
def wbDisjoint (flt : FileFilter) : Prop :=
  ∀ t, t ∈ flt.tags_whitelist → t ∉ flt.tags_blacklist

/-- Object store for the aliasing behaviour of `FilterWidget`: `heap` holds
the `FileFilter` instances ever allocated, `filterRef` is the index of the
instance bound to `self._filter`. -/
structure FilterWidgetState where
  heap : List FileFilter
  filterRef : Nat
  deriving DecidableEq, Repr

/-- The `name_regex` property setter of `FilterWidget` on the object store:
when the value differs, `self._filter.name_regex = name_regex` mutates the
held instance in place and `filter_changed.emit(self._filter)` hands that
same instance to consumers.  Returns the new state together with the list
of references emitted to consumers. -/
def widget_set_name_regex (s : FilterWidgetState) (x : String) :
    FilterWidgetState × List Nat :=
  match s.heap.get? s.filterRef with
  | none => (s, [])
  | some flt =>
    if x ≠ flt.name_regex then
      ({ s with heap := s.heap.set s.filterRef { flt with name_regex := x } },
       [s.filterRef])
    else (s, [])

/-- Follows the spec's words (refinement side of C3): the stem is "the
filename without its last extension segment" — everything before the LAST
dot when the name has one. -/
def specStem (name : String) : String :=
  let parts := splitOnChar '.' name.data
  if parts.length ≤ 1 then name
  else String.mk (List.intercalate ['.'] parts.dropLast)

/-- Follows the spec's words (refinement side of C3): the name check the
spec describes — substring search of the pattern in the stem of the file
name, case folded unless the case-sensitive flag is set. -/
def specNameCheck (flt : FileFilter) (f : VideoFile) : Bool :=
  reSearchFound flt.name_regex flt.name_regex_case_sensitive (specStem (VideoFile.name f))

/-! ### Concrete inputs used by counterexamples and witnesses -/

/-- A file tagged `{A, B}` (spec §8's whitelist/blacklist example). -/
def fAB : VideoFile :=
  { id := 1, path := "dir/movie.mp4", size := 100, date_modified := 0,
    tags := ["A", "B"] }

/-- A file whose basename has two extension segments. -/
def fTar : VideoFile :=
  { id := 2, path := "archive.tar.gz", size := 0, date_modified := 0 }

/-- A file with no rating. -/
def fNoRating : VideoFile :=
  { id := 3, path := "clip.avi", size := 10, date_modified := 0 }

/-- Files of 500, 2000 and 100000 bytes (spec §8's size-sort example). -/
def demoFiles : List VideoFile :=
  [ { id := 1, path := "a", size := 500, date_modified := 0 },
    { id := 2, path := "b", size := 2000, date_modified := 0 },
    { id := 3, path := "c", size := 100000, date_modified := 0 } ]

/-- The store after adding `fAB` to an empty database. -/
def dbAB : DB := (add_file {} fAB).1

/-- A store holding one file (id 1) that already carries the tag `Y`. -/
def dbY : DB :=
  (add_file {} { id := 1, path := "p", size := 0, date_modified := 0,
                 tags := ["Y"] }).1

/-- `dbY` after attach `X`, detach `X`, attach `X` on file 1. -/
def dbYSeq : DB := set_tag (remove_tag (set_tag dbY 1 "X") 1 "X") 1 "X"

/-- A widget whose single allocated `FileFilter` is the default instance. -/
def widget0 : FilterWidgetState := { heap := [{}], filterRef := 0 }

/-! ### Helper lemmas -/

/-- The empty pattern is found in every string. -/
theorem subSearch_nil (l : List Char) : subSearch [] l = true := by
  induction l with
  | nil => rfl
  | cons c rest ih => simp [subSearch]

/-- Decomposition of the non-pinned path of `filterAcceptsRow` into the
conjunction of its seven clauses. -/
theorem filterAcceptsRow_eq_checks (flt : FileFilter) (cur : Option VideoFile)
    (f : VideoFile) (h : some f ≠ cur) :
    filterAcceptsRow flt cur f =
      (nameCheck flt f && pathCheck flt f && ratingCheck flt f &&
       whitelistCheck flt f && blacklistCheck flt f && sizeCheck flt f &&
       dateCheck flt f) := by
  unfold filterAcceptsRow
  rw [if_neg h]
  cases nameCheck flt f <;> cases pathCheck flt f <;> cases ratingCheck flt f <;>
    cases whitelistCheck flt f <;> cases blacklistCheck flt f <;>
    cases sizeCheck flt f <;> cases dateCheck flt f <;> rfl

/-! ### C2 — pinned current file bypasses every other check -/

/-- C2: for every filter criteria and every file, when the file is the
designated pinned current file, `filterAcceptsRow` accepts it
unconditionally, however restrictive the other criteria are. -/
theorem pinned_file_always_accepted (flt : FileFilter) (f : VideoFile) :
    filterAcceptsRow flt (some f) f = true := by
  unfold filterAcceptsRow
  rw [if_pos rfl]

/-! ### C3 — what string the name check actually tests -/

/-- C3 counterexample: for `archive.tar.gz` the spec's stem (filename without
its last extension segment) is `"archive.tar"`, so the claimed name check
matches the pattern `"tar"`; the code searches `name.split('.')[0]`
(`"archive"`) instead and rejects the file even though every other
criterion is permissive and the file is not pinned. -/
theorem name_check_stem_counterexample :
    specStem (VideoFile.name fTar) = "archive.tar" ∧
    specNameCheck { name_regex := "tar" } fTar = true ∧
    VideoFile.nameSplitHead fTar = "archive" ∧
    filterAcceptsRow { name_regex := "tar" } none fTar = false := by
  decide

/-- C3 (amended): for every non-pinned file the name check tests the portion
of the file's basename before its FIRST dot for a substring (not full)
match of the pattern, case-insensitively unless the case-sensitive flag is
set; an empty pattern matches every file. -/
theorem name_check_first_dot_segment (flt : FileFilter) (cur : Option VideoFile)
    (f : VideoFile) (h : some f ≠ cur) :
    (filterAcceptsRow flt cur f = true → nameCheck flt f = true) ∧
    (nameCheck flt f =
      (if flt.name_regex_case_sensitive then
        subSearch flt.name_regex.data (VideoFile.nameSplitHead f).data
      else
        subSearch (lowerChars flt.name_regex.data)
          (lowerChars (VideoFile.nameSplitHead f).data))) ∧
    (flt.name_regex = "" → nameCheck flt f = true) := by
  refine ⟨?_, ?_, ?_⟩
  · rw [filterAcceptsRow_eq_checks flt cur f h]
    intro hacc
    simp only [Bool.and_eq_true] at hacc
    exact hacc.1.1.1.1.1.1
  · rfl
  · intro he
    unfold nameCheck reSearchFound
    rw [he]
    cases flt.name_regex_case_sensitive <;>
      simp [lowerChars, subSearch_nil]

/-- Witness for `name_check_first_dot_segment` at a concrete input. -/
theorem name_check_first_dot_segment_witness :
    nameCheck {} fTar = true :=
  (name_check_first_dot_segment {} none fTar (by decide)).2.2 rfl

/-! ### C5 — tag whitelist / blacklist semantics -/

/-- The whitelist clause holds iff a non-empty whitelist is a subset of the
file's tag set. -/
theorem whitelistCheck_eq_true_iff (flt : FileFilter) (f : VideoFile) :
    whitelistCheck flt f = true ↔
      (flt.tags_whitelist ≠ [] → ∀ t ∈ flt.tags_whitelist, t ∈ f.tags) := by
  unfold whitelistCheck
  cases hl : flt.tags_whitelist with
  | nil => simp
  | cons a l => simp [List.all_eq_true]

/-- The blacklist clause holds iff a non-empty blacklist does not intersect
the file's tag set. -/
theorem blacklistCheck_eq_true_iff (flt : FileFilter) (f : VideoFile) :
    blacklistCheck flt f = true ↔
      (flt.tags_blacklist ≠ [] → ∀ t ∈ flt.tags_blacklist, t ∉ f.tags) := by
  unfold blacklistCheck
  cases hl : flt.tags_blacklist with
  | nil => simp
  | cons a l => simp [List.any_eq_true]

/-- C5: for a non-pinned file passing all the other checks, acceptance is
equivalent to: every tag of a non-empty whitelist is in the file's tag set,
and no tag of a non-empty blacklist is; an empty whitelist or blacklist
imposes no constraint. -/
theorem whitelist_blacklist_semantics (flt : FileFilter) (cur : Option VideoFile)
    (f : VideoFile) (h : some f ≠ cur)
    (hname : nameCheck flt f = true) (hpath : pathCheck flt f = true)
    (hrating : ratingCheck flt f = true) (hsize : sizeCheck flt f = true)
    (hdate : dateCheck flt f = true) :
    filterAcceptsRow flt cur f = true ↔
      ((flt.tags_whitelist ≠ [] → ∀ t ∈ flt.tags_whitelist, t ∈ f.tags) ∧
       (flt.tags_blacklist ≠ [] → ∀ t ∈ flt.tags_blacklist, t ∉ f.tags)) := by
  rw [filterAcceptsRow_eq_checks flt cur f h, hname, hpath, hrating, hsize, hdate]
  simp only [Bool.true_and, Bool.and_true, Bool.and_eq_true]
  exact and_congr (whitelistCheck_eq_true_iff flt f) (blacklistCheck_eq_true_iff flt f)

/-- Witness for `whitelist_blacklist_semantics`: the file tagged `{A, B}` is
accepted under whitelist `{A}`. -/
theorem whitelist_blacklist_semantics_witness :
    filterAcceptsRow { tags_whitelist := ["A"] } none fAB = true :=
  (whitelist_blacklist_semantics { tags_whitelist := ["A"] } none fAB
    (by decide) (by decide) (by decide) (by decide) (by decide) (by decide)).mpr
    (by decide)

/-! ### C8 — rating range with absent rating treated as 0 -/

/-- C8: for a non-pinned file passing all the other checks, acceptance is
equivalent to the effective rating — the stored rating, or 0 when absent —
lying in the inclusive rating range. -/
theorem rating_absent_treated_as_zero (flt : FileFilter) (cur : Option VideoFile)
    (f : VideoFile) (h : some f ≠ cur)
    (hname : nameCheck flt f = true) (hpath : pathCheck flt f = true)
    (hwl : whitelistCheck flt f = true) (hbl : blacklistCheck flt f = true)
    (hsize : sizeCheck flt f = true) (hdate : dateCheck flt f = true) :
    (filterAcceptsRow flt cur f = true ↔
      (flt.rating.1 ≤ f.rating.getD 0 ∧ f.rating.getD 0 ≤ flt.rating.2)) ∧
    (f.rating = none →
      (filterAcceptsRow flt cur f = true ↔
        (flt.rating.1 ≤ 0 ∧ 0 ≤ flt.rating.2))) := by
  have hmain : filterAcceptsRow flt cur f = true ↔
      (flt.rating.1 ≤ f.rating.getD 0 ∧ f.rating.getD 0 ≤ flt.rating.2) := by
    rw [filterAcceptsRow_eq_checks flt cur f h, hname, hpath, hwl, hbl, hsize, hdate]
    simp only [Bool.true_and, Bool.and_true]
    unfold ratingCheck
    simp only [Bool.not_eq_true', Bool.or_eq_false_iff, decide_eq_false_iff_not, not_lt]
  refine ⟨hmain, fun hnone => ?_⟩
  rw [hmain, hnone]
  rfl

/-- Witness for `rating_absent_treated_as_zero`: a file with no rating is
accepted by the range `[0,5]` and rejected by the range `[1,5]`. -/
theorem rating_absent_treated_as_zero_witness :
    filterAcceptsRow { rating := (0, 5) } none fNoRating = true ∧
    filterAcceptsRow { rating := (1, 5) } none fNoRating = false := by
  constructor
  · exact (rating_absent_treated_as_zero { rating := (0, 5) } none fNoRating
      (by decide) (by decide) (by decide) (by decide) (by decide) (by decide)
      (by decide)).1.mpr (by decide)
  · have hiff := (rating_absent_treated_as_zero { rating := (1, 5) } none fNoRating
      (by decide) (by decide) (by decide) (by decide) (by decide) (by decide)
      (by decide)).1
    cases heq : filterAcceptsRow { rating := (1, 5) } none fNoRating with
    | false => rfl
    | true => exact absurd (hiff.mp heq) (by decide)

/-! ### C4 — sorting by the Size column -/

/-- C4: the claim fails on the code and the mismatch is a slip in the code.
`FileListModel` places the Size column at index 3 (and Rating at index 1),
but `FileSortFilterProxyModel.lessThan` applies the raw byte-count
comparison only when the sort column is 1 (its guard is commented
`# Not size column`).  Sorting by the actual Size column 3 therefore falls
back to comparing the formatted display strings: for files of 500, 2000 and
100000 bytes the view's Size sort places 100000 before 2000 before 500
("100 KB" < "2 KB" < "500 bytes" lexically), the reverse of the claimed
numeric ascending order, while the numeric comparison fires when sorting
the Rating column instead. -/
theorem size_sort_compares_display_strings :
    horizontal_header_labels.indexOf "Size" = 3 ∧
    horizontal_header_labels.indexOf "Rating" = 1 ∧
    demoFiles.map VideoFile.size = [500, 2000, 100000] ∧
    displayText (demoFiles.getD 0 default) 3 = "500 bytes" ∧
    displayText (demoFiles.getD 1 default) 3 = "2 KB" ∧
    displayText (demoFiles.getD 2 default) 3 = "100 KB" ∧
    proxyLessThan 3 demoFiles 2 1 = true ∧
    proxyLessThan 3 demoFiles 1 0 = true ∧
    proxyLessThan 3 demoFiles 0 1 = false ∧
    proxyLessThan 3 demoFiles 0 2 = false ∧
    proxyLessThan 1 demoFiles 0 1 = true := by
  decide

/-! ### C1 — store-level tag query vs in-memory predicate -/

/-- C1: the claim fails on the code.  `get_files_with_tags` selects files
holding AT LEAST ONE whitelist-named tag (SQL `IN`), not all of them, and
an empty whitelist selects nothing.  On a store holding the single file
tagged `{A, B}`: with empty whitelist and blacklist the query returns no
files while the in-memory predicate accepts the file; with whitelist
`{A, C}` the query returns the file while the predicate rejects it. -/
theorem get_files_with_tags_diverges_from_predicate :
    fileTagNames dbAB 1 = ["A", "B"] ∧
    get_files_with_tags dbAB [] [] = [] ∧
    filterAcceptsRow {} none fAB = true ∧
    get_files_with_tags dbAB ["A", "C"] [] = [1] ∧
    filterAcceptsRow { tags_whitelist := ["A", "C"] } none fAB = false := by
  decide

/-! ### C7 — filter edits mutate the held instance in place -/

/-- C7 counterexample: editing the name pattern on a widget holding the
default `FileFilter` at reference 0 emits the very reference that already
existed (no new instance: the heap does not grow), and the value stored at
that previously observed reference has changed — the instance is mutated in
place, consumers do not receive a fresh instance. -/
theorem filter_edit_no_new_instance_counterexample :
    (widget_set_name_regex widget0 "a").2 = [0] ∧
    (widget_set_name_regex widget0 "a").1.filterRef = 0 ∧
    (widget_set_name_regex widget0 "a").1.heap.length = widget0.heap.length ∧
    (widget_set_name_regex widget0 "a").1.heap.get? 0 ≠ widget0.heap.get? 0 := by
  decide

/-- C7 (amended): every effective edit of the name-pattern field mutates the
single `FileFilter` instance held by the widget in place and emits that
same instance to consumers: the emitted reference equals the held
reference, the heap does not grow, the cell at the held reference now
carries the updated value, and every other cell is untouched. -/
theorem filter_edit_emits_same_instance (s : FilterWidgetState) (x : String)
    (flt : FileFilter) (href : s.heap.get? s.filterRef = some flt)
    (hne : x ≠ flt.name_regex) :
    (widget_set_name_regex s x).2 = [s.filterRef] ∧
    (widget_set_name_regex s x).1.filterRef = s.filterRef ∧
    (widget_set_name_regex s x).1.heap.length = s.heap.length ∧
    (widget_set_name_regex s x).1.heap.get? s.filterRef =
      some { flt with name_regex := x } ∧
    (∀ i, i ≠ s.filterRef →
      (widget_set_name_regex s x).1.heap.get? i = s.heap.get? i) := by
  have hlt : s.filterRef < s.heap.length := (List.get?_eq_some.mp href).1
  unfold widget_set_name_regex
  rw [href]
  dsimp only
  rw [if_pos hne]
  refine ⟨rfl, rfl, by simp, ?_, ?_⟩
  · rw [List.get?_eq_getElem?]
    simp [List.getElem?_set_self, hlt]
  · intro i hi
    simp [List.get?_eq_getElem?, List.getElem?_set_ne (Ne.symm hi)]

/-- Witness for `filter_edit_emits_same_instance` at a concrete widget. -/
theorem filter_edit_emits_same_instance_witness :
    (widget_set_name_regex widget0 "b").2 = [widget0.filterRef] :=
  (filter_edit_emits_same_instance widget0 "b" {} rfl (by decide)).1

/-! ### C10 — whitelist and blacklist stay disjoint -/

/-- The whitelist setter always leaves the whitelist equal to its argument
(when the guard blocks the assignment the two were already equal). -/
theorem set_tags_whitelist_wl (flt : FileFilter) (l : List String) :
    (set_tags_whitelist flt l).tags_whitelist = l := by
  unfold set_tags_whitelist
  split
  · rfl
  · next h => exact not_ne_iff.mp h

/-- The whitelist setter does not touch the blacklist. -/
theorem set_tags_whitelist_bl (flt : FileFilter) (l : List String) :
    (set_tags_whitelist flt l).tags_blacklist = flt.tags_blacklist := by
  unfold set_tags_whitelist
  split <;> rfl

/-- The blacklist setter always leaves the blacklist equal to its argument. -/
theorem set_tags_blacklist_bl (flt : FileFilter) (l : List String) :
    (set_tags_blacklist flt l).tags_blacklist = l := by
  unfold set_tags_blacklist
  split
  · rfl
  · next h => exact not_ne_iff.mp h

/-- The blacklist setter does not touch the whitelist. -/
theorem set_tags_blacklist_wl (flt : FileFilter) (l : List String) :
    (set_tags_blacklist flt l).tags_whitelist = flt.tags_whitelist := by
  unfold set_tags_blacklist
  split <;> rfl

/-- Turning a tag off in the whitelist is exactly the `s - {tag}` assignment
(a no-op when the tag was not in the whitelist). -/
theorem set_tag_in_whitelist_false (flt : FileFilter) (tag : String) :
    set_tag_in_whitelist flt tag false =
      set_tags_whitelist flt (diffTag flt.tags_whitelist tag) := by
  unfold set_tag_in_whitelist
  split
  · rfl
  · next h =>
    have hmem : tag ∉ flt.tags_whitelist := by
      simp only [tag_in_whitelist] at h
      intro hmem
      exact h (by simp [hmem])
    have hd : diffTag flt.tags_whitelist tag = flt.tags_whitelist := by
      unfold diffTag
      rw [List.filter_eq_self]
      intro a ha
      simp only [decide_eq_true_eq]
      intro heq
      exact hmem (heq ▸ ha)
    rw [hd]
    unfold set_tags_whitelist
    split
    · next hne => exact absurd rfl hne
    · rfl

/-- Turning a tag off in the blacklist is exactly the `s - {tag}` assignment. -/
theorem set_tag_in_blacklist_false (flt : FileFilter) (tag : String) :
    set_tag_in_blacklist flt tag false =
      set_tags_blacklist flt (diffTag flt.tags_blacklist tag) := by
  unfold set_tag_in_blacklist
  split
  · rfl
  · next h =>
    have hmem : tag ∉ flt.tags_blacklist := by
      simp only [tag_in_blacklist] at h
      intro hmem
      exact h (by simp [hmem])
    have hd : diffTag flt.tags_blacklist tag = flt.tags_blacklist := by
      unfold diffTag
      rw [List.filter_eq_self]
      intro a ha
      simp only [decide_eq_true_eq]
      intro heq
      exact hmem (heq ▸ ha)
    rw [hd]
    unfold set_tags_blacklist
    split
    · next hne => exact absurd rfl hne
    · rfl

/-- Turning a tag on in the whitelist when it is already there is a no-op. -/
theorem set_tag_in_whitelist_true_mem (flt : FileFilter) (tag : String)
    (h : tag ∈ flt.tags_whitelist) :
    set_tag_in_whitelist flt tag true = flt := by
  unfold set_tag_in_whitelist
  split
  · next hg => exact absurd (by simp [tag_in_whitelist, h]) hg
  · rfl

/-- Turning a tag on in the blacklist when it is already there is a no-op. -/
theorem set_tag_in_blacklist_true_mem (flt : FileFilter) (tag : String)
    (h : tag ∈ flt.tags_blacklist) :
    set_tag_in_blacklist flt tag true = flt := by
  unfold set_tag_in_blacklist
  split
  · next hg => exact absurd (by simp [tag_in_blacklist, h]) hg
  · rfl

/-- Turning a fresh tag on in the whitelist adds it to the whitelist and
forces it out of the blacklist. -/
theorem set_tag_in_whitelist_true_sets (flt : FileFilter) (tag : String)
    (h : tag ∉ flt.tags_whitelist) :
    (set_tag_in_whitelist flt tag true).tags_whitelist =
      unionTag flt.tags_whitelist tag ∧
    (set_tag_in_whitelist flt tag true).tags_blacklist =
      diffTag flt.tags_blacklist tag := by
  rw [show set_tag_in_whitelist flt tag true =
      set_tag_in_blacklist
        (set_tags_whitelist flt (unionTag flt.tags_whitelist tag)) tag false from by
    unfold set_tag_in_whitelist
    split
    · rfl
    · next hg => exact absurd (by simp [tag_in_whitelist, h]) hg]
  rw [set_tag_in_blacklist_false]
  constructor
  · rw [set_tags_blacklist_wl, set_tags_whitelist_wl]
  · rw [set_tags_blacklist_bl, set_tags_whitelist_bl]

/-- Turning a fresh tag on in the blacklist adds it to the blacklist and
forces it out of the whitelist. -/
theorem set_tag_in_blacklist_true_sets (flt : FileFilter) (tag : String)
    (h : tag ∉ flt.tags_blacklist) :
    (set_tag_in_blacklist flt tag true).tags_blacklist =
      unionTag flt.tags_blacklist tag ∧
    (set_tag_in_blacklist flt tag true).tags_whitelist =
      diffTag flt.tags_whitelist tag := by
  rw [show set_tag_in_blacklist flt tag true =
      set_tag_in_whitelist
        (set_tags_blacklist flt (unionTag flt.tags_blacklist tag)) tag false from by
    unfold set_tag_in_blacklist
    split
    · rfl
    · next hg => exact absurd (by simp [tag_in_blacklist, h]) hg]
  rw [set_tag_in_whitelist_false]
  constructor
  · rw [set_tags_whitelist_bl, set_tags_blacklist_bl]
  · rw [set_tags_whitelist_wl, set_tags_blacklist_wl]

/-- Membership facts about `unionTag` and `diffTag`. -/
theorem mem_unionTag {l : List String} {tag s : String}
    (hs : s ∈ unionTag l tag) : s ∈ l ∨ s = tag := by
  unfold unionTag at hs
  split at hs
  · exact Or.inl hs
  · simpa using hs

/-- Membership in `diffTag` means membership in the original list and being
different from the removed tag. -/
theorem mem_diffTag {l : List String} {tag s : String}
    (hs : s ∈ diffTag l tag) : s ∈ l ∧ s ≠ tag := by
  unfold diffTag at hs
  simpa using List.mem_filter.mp hs

/-- One whitelist toggle preserves disjointness. -/
theorem wbDisjoint_set_tag_in_whitelist (flt : FileFilter) (tag : String)
    (b : Bool) (h : wbDisjoint flt) :
    wbDisjoint (set_tag_in_whitelist flt tag b) := by
  cases b with
  | false =>
    rw [set_tag_in_whitelist_false]
    intro s hs hbl
    rw [set_tags_whitelist_wl] at hs
    rw [set_tags_whitelist_bl] at hbl
    exact h s (mem_diffTag hs).1 hbl
  | true =>
    by_cases hmem : tag ∈ flt.tags_whitelist
    · rw [set_tag_in_whitelist_true_mem flt tag hmem]
      exact h
    · obtain ⟨hwl, hbl⟩ := set_tag_in_whitelist_true_sets flt tag hmem
      intro s hs hsbl
      rw [hwl] at hs
      rw [hbl] at hsbl
      rcases mem_unionTag hs with hs | hs
      · exact h s hs (mem_diffTag hsbl).1
      · exact (mem_diffTag hsbl).2 hs

/-- One blacklist toggle preserves disjointness. -/
theorem wbDisjoint_set_tag_in_blacklist (flt : FileFilter) (tag : String)
    (b : Bool) (h : wbDisjoint flt) :
    wbDisjoint (set_tag_in_blacklist flt tag b) := by
  cases b with
  | false =>
    rw [set_tag_in_blacklist_false]
    intro s hs hbl
    rw [set_tags_blacklist_wl] at hs
    rw [set_tags_blacklist_bl] at hbl
    exact h s hs (mem_diffTag hbl).1
  | true =>
    by_cases hmem : tag ∈ flt.tags_blacklist
    · rw [set_tag_in_blacklist_true_mem flt tag hmem]
      exact h
    · obtain ⟨hbl, hwl⟩ := set_tag_in_blacklist_true_sets flt tag hmem
      intro s hs hsbl
      rw [hwl] at hs
      rw [hbl] at hsbl
      rcases mem_unionTag hsbl with hsb | hsb
      · exact h s (mem_diffTag hs).1 hsb
      · exact (mem_diffTag hs).2 hsb

/-- C10: starting from a `FilterWidget` state whose tag whitelist and
blacklist are disjoint, any sequence of `set_tag_in_whitelist` /
`set_tag_in_blacklist` interactions leaves them disjoint: setting a tag
into one list also removes it from the other. -/
theorem whitelist_blacklist_stay_disjoint (flt : FileFilter) (ops : List WBOp)
    (h : wbDisjoint flt) : wbDisjoint (applyWBOps flt ops) := by
  induction ops generalizing flt with
  | nil => exact h
  | cons op rest ih =>
    cases op with
    | wl t b => exact ih _ (wbDisjoint_set_tag_in_whitelist flt t b h)
    | bl t b => exact ih _ (wbDisjoint_set_tag_in_blacklist flt t b h)

/-- Witness for `whitelist_blacklist_stay_disjoint`: toggling the same tag
into the whitelist and then into the blacklist from the default (empty)
filter. -/
theorem whitelist_blacklist_stay_disjoint_witness :
    wbDisjoint (applyWBOps {} [WBOp.wl "A" true, WBOp.bl "A" true]) :=
  whitelist_blacklist_stay_disjoint {} [WBOp.wl "A" true, WBOp.bl "A" true]
    (fun t ht => by simp at ht)

/-! ### C6 — add_file: sentinel on duplicates, insert-and-attach on new paths -/

/-- A tag name is attached to a file iff some tag row carries that name and
an association row links the file to it. -/
theorem mem_fileTagNames_iff (db : DB) (fid : Nat) (n : String) :
    n ∈ fileTagNames db fid ↔
      ∃ r ∈ db.tags, r.name = n ∧ (fid, r.id) ∈ db.file_has_tag := by
  unfold fileTagNames
  simp only [List.mem_map, List.mem_filter, decide_eq_true_eq]
  constructor
  · rintro ⟨r, ⟨hr, hpair⟩, hname⟩
    exact ⟨r, hr, hname, hpair⟩
  · rintro ⟨r, hr, hname, hpair⟩
    exact ⟨r, ⟨hr, hpair⟩, hname⟩

/-- `set_tag` never touches the `files` table. -/
theorem set_tag_files (d : DB) (fid : Nat) (t : String) :
    (set_tag d fid t).files = d.files := by
  unfold set_tag
  cases get_tag_id d t <;> dsimp <;> split <;> rfl

/-- `set_tag` only ever appends to the `tags` table. -/
theorem set_tag_tags_sub (d : DB) (fid : Nat) (t : String) :
    ∀ r ∈ d.tags, r ∈ (set_tag d fid t).tags := by
  intro r hr
  unfold set_tag
  cases get_tag_id d t <;> dsimp <;> split
  · exact List.mem_append_left _ hr
  · exact List.mem_append_left _ hr
  · exact hr
  · exact hr

/-- `set_tag` only ever appends to the `file_has_tag` table. -/
theorem set_tag_fht_sub (d : DB) (fid : Nat) (t : String) :
    ∀ p ∈ d.file_has_tag, p ∈ (set_tag d fid t).file_has_tag := by
  intro p hp
  unfold set_tag
  cases get_tag_id d t <;> dsimp <;> split
  · exact hp
  · exact List.mem_append_left _ hp
  · exact hp
  · exact List.mem_append_left _ hp

/-- After `set_tag`, some tag row carries the attached name and the file is
associated with it. -/
theorem set_tag_self_attached (d : DB) (fid : Nat) (t : String) :
    ∃ r ∈ (set_tag d fid t).tags,
      r.name = t ∧ (fid, r.id) ∈ (set_tag d fid t).file_has_tag := by
  cases hg : get_tag_id d t with
  | some tid =>
    obtain ⟨r, hfind, hid⟩ := Option.map_eq_some'.mp hg
    have hrmem : r ∈ d.tags := List.mem_of_find?_eq_some hfind
    have hrname : r.name = t := by simpa using List.find?_some hfind
    refine ⟨r, ?_, hrname, ?_⟩
    · unfold set_tag
      rw [hg]
      dsimp
      split <;> exact hrmem
    · unfold set_tag
      rw [hg]
      dsimp
      split
      · next hin => exact hid ▸ hin
      · exact hid ▸ List.mem_append_right _ (by simp)
  | none =>
    refine ⟨⟨d.nextTagId, t⟩, ?_, rfl, ?_⟩
    · unfold set_tag
      rw [hg]
      dsimp
      split <;> exact List.mem_append_right _ (by simp)
    · unfold set_tag
      rw [hg]
      dsimp
      split
      · next hin => exact hin
      · exact List.mem_append_right _ (by simp)

/-- The attached tag name is in the file's materialized tag set. -/
theorem mem_fileTagNames_set_tag_self (d : DB) (fid : Nat) (t : String) :
    t ∈ fileTagNames (set_tag d fid t) fid :=
  (mem_fileTagNames_iff _ _ _).mpr (set_tag_self_attached d fid t)

/-- `set_tag` preserves every existing tag-set membership. -/
theorem mem_fileTagNames_set_tag_mono (d : DB) (fid fid0 : Nat) (u : String)
    {s : String} (hs : s ∈ fileTagNames d fid0) :
    s ∈ fileTagNames (set_tag d fid u) fid0 := by
  obtain ⟨r, hr, hname, hpair⟩ := (mem_fileTagNames_iff _ _ _).mp hs
  exact (mem_fileTagNames_iff _ _ _).mpr
    ⟨r, set_tag_tags_sub d fid u r hr, hname, set_tag_fht_sub d fid u _ hpair⟩

/-- Folding `set_tag` over a tag list never touches the `files` table. -/
theorem foldl_set_tag_files (l : List String) (d : DB) (fid : Nat) :
    (l.foldl (fun d t => set_tag d fid t) d).files = d.files := by
  induction l generalizing d with
  | nil => rfl
  | cons u rest ih =>
    rw [List.foldl_cons, ih, set_tag_files]

/-- Folding `set_tag` preserves every existing tag-set membership. -/
theorem mem_fileTagNames_foldl_mono (l : List String) (d : DB) (fid fid0 : Nat)
    {s : String} (hs : s ∈ fileTagNames d fid0) :
    s ∈ fileTagNames (l.foldl (fun d t => set_tag d fid t) d) fid0 := by
  induction l generalizing d with
  | nil => exact hs
  | cons u rest ih =>
    rw [List.foldl_cons]
    exact ih _ (mem_fileTagNames_set_tag_mono d fid fid0 u hs)

/-- Folding `set_tag` over a tag list attaches every tag of the list. -/
theorem mem_fileTagNames_foldl (l : List String) (d : DB) (fid : Nat) :
    ∀ t ∈ l, t ∈ fileTagNames (l.foldl (fun d t => set_tag d fid t) d) fid := by
  induction l generalizing d with
  | nil => intro t ht; cases ht
  | cons u rest ih =>
    intro t ht
    rw [List.foldl_cons]
    rcases List.mem_cons.mp ht with rfl | ht
    · exact mem_fileTagNames_foldl_mono rest _ fid fid
        (mem_fileTagNames_set_tag_self d fid t)
    · exact ih _ t ht

/-- A name carried by some tag row resolves to a tag id. -/
theorem get_tag_id_ne_none (db : DB) (t : String)
    (h : ∃ r ∈ db.tags, r.name = t) : get_tag_id db t ≠ none := by
  unfold get_tag_id
  obtain ⟨r, hr, hname⟩ := h
  intro hc
  rw [Option.map_eq_none'] at hc
  rw [List.find?_eq_none] at hc
  exact hc r hr (by simp [hname])

/-- `add_file` on a store already holding the path returns the `-1` sentinel
and the unchanged store. -/
theorem add_file_dup (d : DB) (g : VideoFile)
    (h : d.files.any (fun r => decide (r.path = g.path)) = true) :
    add_file d g = (d, -1) := by
  unfold add_file
  rw [if_pos h]

/-- C6: adding a file whose path is new inserts exactly one file row with the
store-assigned id (returned to the caller), attaches every tag in
`file.tags` to it, auto-creating unknown tag names, and a second `add_file`
with the same path then returns the `-1` sentinel and leaves the store
completely unchanged. -/
theorem add_file_spec (db : DB) (f : VideoFile)
    (hnew : ∀ r ∈ db.files, r.path ≠ f.path) :
    (add_file db f).2 = (db.nextFileId : Int) ∧
    (add_file db f).1.files = db.files ++
      [⟨db.nextFileId, f.path, f.size, f.date_modified, f.duration, f.rating⟩] ∧
    (∀ t ∈ f.tags, t ∈ fileTagNames (add_file db f).1 db.nextFileId) ∧
    (∀ t ∈ f.tags, get_tag_id (add_file db f).1 t ≠ none) ∧
    add_file (add_file db f).1 f = ((add_file db f).1, -1) := by
  have hany : db.files.any (fun r => decide (r.path = f.path)) = false := by
    rw [List.any_eq_false]
    intro r hr
    simpa using hnew r hr
  have hstep : add_file db f =
      (f.tags.foldl (fun d t => set_tag d db.nextFileId t)
        { db with
          files := db.files ++
            [⟨db.nextFileId, f.path, f.size, f.date_modified, f.duration, f.rating⟩],
          nextFileId := db.nextFileId + 1 },
       (db.nextFileId : Int)) := by
    unfold add_file
    rw [if_neg (by rw [hany]; exact Bool.false_ne_true)]
  have hfiles : (add_file db f).1.files = db.files ++
      [⟨db.nextFileId, f.path, f.size, f.date_modified, f.duration, f.rating⟩] := by
    rw [hstep]
    exact foldl_set_tag_files _ _ _
  have htags : ∀ t ∈ f.tags, t ∈ fileTagNames (add_file db f).1 db.nextFileId := by
    intro t ht
    rw [hstep]
    exact mem_fileTagNames_foldl _ _ _ t ht
  refine ⟨by rw [hstep], hfiles, htags, ?_, ?_⟩
  · intro t ht
    obtain ⟨r, hr, hname, _⟩ :=
      (mem_fileTagNames_iff _ _ _).mp (htags t ht)
    exact get_tag_id_ne_none _ t ⟨r, hr, hname⟩
  · have hany2 : (add_file db f).1.files.any
        (fun r => decide (r.path = f.path)) = true := by
      rw [List.any_eq_true]
      refine ⟨⟨db.nextFileId, f.path, f.size, f.date_modified, f.duration, f.rating⟩,
        ?_, by simp⟩
      rw [hfiles]
      exact List.mem_append_right _ (by simp)
    exact add_file_dup _ f hany2

/-- Witness for `add_file_spec`: adding the `{A, B}`-tagged file to an empty
store attaches the tag `A` to the new row (id 1). -/
theorem add_file_spec_witness :
    "A" ∈ fileTagNames (add_file {} fAB).1 ({} : DB).nextFileId :=
  (add_file_spec {} fAB (by intro r hr; simp at hr)).2.2.1 "A" (by decide)

/-! ### C9 — attach / detach / attach -/

/-- Two tag rows with the same name are the same row when tag names are
duplicate-free. -/
theorem tag_rows_eq_of_name (db : DB) (r r' : TagRow)
    (hnames : (db.tags.map TagRow.name).Nodup)
    (hr : r ∈ db.tags) (hr' : r' ∈ db.tags) (h : r.name = r'.name) : r = r' :=
  List.inj_on_of_nodup_map hnames hr hr' h

/-- Two tag rows with the same id are the same row when tag ids are
duplicate-free. -/
theorem tag_rows_eq_of_id (db : DB) (r r' : TagRow)
    (hids : (db.tags.map TagRow.id).Nodup)
    (hr : r ∈ db.tags) (hr' : r' ∈ db.tags) (h : r.id = r'.id) : r = r' :=
  List.inj_on_of_nodup_map hids hr hr' h

/-- `get_tag_id` resolves a name to a row carrying that name. -/
theorem get_tag_id_row (db : DB) (X : String) (tid : Nat)
    (hg : get_tag_id db X = some tid) :
    ∃ r ∈ db.tags, r.name = X ∧ r.id = tid := by
  unfold get_tag_id at hg
  obtain ⟨r, hfind, hid⟩ := Option.map_eq_some'.mp hg
  exact ⟨r, List.mem_of_find?_eq_some hfind, by simpa using List.find?_some hfind, hid⟩

/-- Under duplicate-free tag names, `get_tag_id` returns the id of any row
carrying the queried name. -/
theorem get_tag_id_eq_of_mem (db : DB) (X : String) (r : TagRow)
    (hnames : (db.tags.map TagRow.name).Nodup)
    (hr : r ∈ db.tags) (hname : r.name = X) :
    get_tag_id db X = some r.id := by
  cases hg : get_tag_id db X with
  | none =>
    unfold get_tag_id at hg
    rw [Option.map_eq_none'] at hg
    rw [List.find?_eq_none] at hg
    exact absurd (by simp [hname]) (hg r hr)
  | some tid =>
    obtain ⟨r', hr', hname', hid'⟩ := get_tag_id_row db X tid hg
    have : r' = r := tag_rows_eq_of_name db r' r hnames hr' hr (by rw [hname', hname])
    rw [← hid', this]

/-- Attaching a tag the file already holds is a no-op on the store. -/
theorem set_tag_of_attached (db : DB) (fid : Nat) (X : String)
    (hnames : (db.tags.map TagRow.name).Nodup)
    (hatt : X ∈ fileTagNames db fid) :
    set_tag db fid X = db := by
  obtain ⟨r, hr, hname, hpair⟩ := (mem_fileTagNames_iff _ _ _).mp hatt
  have hg : get_tag_id db X = some r.id := get_tag_id_eq_of_mem db X r hnames hr hname
  unfold set_tag
  rw [hg]
  dsimp
  rw [if_pos hpair]

/-- Detaching resolves the tag and filters the association table. -/
theorem remove_tag_of_some (db : DB) (fid tid : Nat) (X : String)
    (hg : get_tag_id db X = some tid) :
    remove_tag db fid X =
      { db with file_has_tag :=
          db.file_has_tag.filter (fun p => !(p.1 = fid && p.2 = tid)) } := by
  unfold remove_tag
  rw [hg]

/-- Detaching an unknown tag name is a no-op. -/
theorem remove_tag_of_none (db : DB) (fid : Nat) (X : String)
    (hg : get_tag_id db X = none) :
    remove_tag db fid X = db := by
  unfold remove_tag
  rw [hg]

/-- Detaching is idempotent. -/
theorem remove_tag_idem (db : DB) (fid : Nat) (X : String) :
    remove_tag (remove_tag db fid X) fid X = remove_tag db fid X := by
  cases hg : get_tag_id db X with
  | none =>
    have h1 : remove_tag db fid X = db := remove_tag_of_none db fid X hg
    rw [h1]
    exact h1
  | some tid =>
    have h1 := remove_tag_of_some db fid tid X hg
    have hg2 : get_tag_id
        { db with file_has_tag :=
            db.file_has_tag.filter (fun p => !(p.1 = fid && p.2 = tid)) } X =
        some tid := hg
    rw [h1, remove_tag_of_some _ fid tid X hg2]
    congr 1
    rw [List.filter_filter]
    apply List.filter_congr
    intro p _
    exact Bool.and_self _

/-- Attaching resolves an existing tag id and appends the missing
association. -/
theorem set_tag_of_some (db : DB) (fid tid : Nat) (X : String)
    (hg : get_tag_id db X = some tid) (hpair : (fid, tid) ∉ db.file_has_tag) :
    set_tag db fid X =
      { db with file_has_tag := db.file_has_tag ++ [(fid, tid)] } := by
  unfold set_tag
  rw [hg]
  dsimp
  rw [if_neg hpair]

/-- Attaching an unknown tag name creates the tag row with the next free id
and appends the association (the fresh id cannot already be referenced). -/
theorem set_tag_of_none_fresh (db : DB) (fid : Nat) (X : String)
    (hg : get_tag_id db X = none)
    (hfresh : ∀ p ∈ db.file_has_tag, p.2 < db.nextTagId) :
    set_tag db fid X =
      { db with tags := db.tags ++ [⟨db.nextTagId, X⟩],
                nextTagId := db.nextTagId + 1,
                file_has_tag := db.file_has_tag ++ [(fid, db.nextTagId)] } := by
  unfold set_tag
  rw [hg]
  dsimp
  rw [if_neg (fun hin => absurd (hfresh _ hin) (lt_irrefl _))]

/-- After appending a row named `X` to a tag table that does not know `X`,
lookup finds exactly the appended row. -/
theorem find_name_append (tags : List TagRow) (X : String) (tid : Nat)
    (h : tags.find? (fun t => decide (t.name = X)) = none) :
    (tags ++ [(⟨tid, X⟩ : TagRow)]).find? (fun t => decide (t.name = X)) =
      some (⟨tid, X⟩ : TagRow) := by
  rw [List.find?_append, h, Option.none_or]
  simp [List.find?]

/-- Attach then detach of a tag the file does not hold restores the
association table exactly. -/
theorem filter_append_self (fht : List (Nat × Nat)) (fid tid : Nat)
    (hkeep : ∀ p ∈ fht, (!(decide (p.1 = fid) && decide (p.2 = tid))) = true) :
    (fht ++ [(fid, tid)]).filter (fun p => !(p.1 = fid && p.2 = tid)) = fht := by
  rw [List.filter_append]
  have h2 : [((fid : Nat), tid)].filter (fun p => !(p.1 = fid && p.2 = tid)) = [] := by
    simp
  have h3 : fht.filter (fun p => !(p.1 = fid && p.2 = tid)) = fht :=
    List.filter_eq_self.mpr hkeep
  rw [h2, h3, List.append_nil]

/-- Attach, detach, attach of a tag the file does not hold is the same store
transformation as a single attach. -/
theorem detach_attach_of_not_attached (db : DB) (fid : Nat) (X : String)
    (hnotatt : X ∉ fileTagNames db fid)
    (hfresh : ∀ p ∈ db.file_has_tag, p.2 < db.nextTagId) :
    set_tag (remove_tag (set_tag db fid X) fid X) fid X = set_tag db fid X := by
  cases hg : get_tag_id db X with
  | some tid =>
    have hpair : (fid, tid) ∉ db.file_has_tag := by
      intro hin
      obtain ⟨r, hr, hname, hid⟩ := get_tag_id_row db X tid hg
      exact hnotatt ((mem_fileTagNames_iff _ _ _).mpr
        ⟨r, hr, hname, by rw [hid]; exact hin⟩)
    have honce := set_tag_of_some db fid tid X hg hpair
    have hg1 : get_tag_id
        { db with file_has_tag := db.file_has_tag ++ [(fid, tid)] } X =
        some tid := hg
    have hkeep : ∀ p ∈ db.file_has_tag,
        (!(decide (p.1 = fid) && decide (p.2 = tid))) = true := by
      rintro ⟨a, b⟩ hp
      by_cases h1 : a = fid
      · by_cases h2 : b = tid
        · subst h1; subst h2; exact absurd hp hpair
        · simp [h2]
      · simp [h1]
    have hback : remove_tag (set_tag db fid X) fid X = db := by
      rw [honce, remove_tag_of_some _ fid tid X hg1]
      dsimp
      rw [filter_append_self db.file_has_tag fid tid hkeep]
    rw [hback]
  | none =>
    have hfindnone : db.tags.find? (fun t => decide (t.name = X)) = none := by
      unfold get_tag_id at hg
      exact Option.map_eq_none'.mp hg
    have honce := set_tag_of_none_fresh db fid X hg hfresh
    have hg2 : get_tag_id
        { db with tags := db.tags ++ [⟨db.nextTagId, X⟩],
                  nextTagId := db.nextTagId + 1,
                  file_has_tag := db.file_has_tag ++ [(fid, db.nextTagId)] } X =
        some db.nextTagId := by
      unfold get_tag_id
      dsimp
      rw [find_name_append db.tags X db.nextTagId hfindnone]
      rfl
    have hkeep : ∀ p ∈ db.file_has_tag,
        (!(decide (p.1 = fid) && decide (p.2 = db.nextTagId))) = true := by
      rintro ⟨a, b⟩ hp
      have hb : b ≠ db.nextTagId := Nat.ne_of_lt (hfresh (a, b) hp)
      simp [hb]
    have hback : remove_tag (set_tag db fid X) fid X =
        { db with tags := db.tags ++ [⟨db.nextTagId, X⟩],
                  nextTagId := db.nextTagId + 1 } := by
      rw [honce, remove_tag_of_some _ fid db.nextTagId X hg2]
      dsimp
      rw [filter_append_self db.file_has_tag fid db.nextTagId hkeep]
    rw [hback, honce]
    have hg3 : get_tag_id
        { db with tags := db.tags ++ [⟨db.nextTagId, X⟩],
                  nextTagId := db.nextTagId + 1 } X =
        some db.nextTagId := hg2
    have hpair3 : (fid, db.nextTagId) ∉
        ({ db with tags := db.tags ++ [⟨db.nextTagId, X⟩],
                   nextTagId := db.nextTagId + 1 } : DB).file_has_tag :=
      fun hin => absurd (hfresh _ hin) (lt_irrefl _)
    rw [set_tag_of_some _ fid db.nextTagId X hg3 hpair3]

/-- Re-inserting a deleted element of a duplicate-free list in front of the
remainder is a permutation of the original list. -/
theorem cons_filter_ne_perm {α : Type} [DecidableEq α] (a : α) (l : List α)
    (hnodup : l.Nodup) (ha : a ∈ l) :
    List.Perm (a :: l.filter (fun x => x ≠ a)) l := by
  induction l with
  | nil => cases ha
  | cons x xs ih =>
    rcases List.mem_cons.mp ha with rfl | hxs
    · have hax : a ∉ xs := (List.nodup_cons.mp hnodup).1
      have h1 : (a :: xs).filter (fun x => decide (x ≠ a)) =
          xs.filter (fun x => decide (x ≠ a)) := by simp
      have h2 : xs.filter (fun x => decide (x ≠ a)) = xs := by
        rw [List.filter_eq_self]
        intro b hb
        simp only [decide_eq_true_eq]
        intro hba
        exact hax (hba ▸ hb)
      rw [h1, h2]
    · have hx : x ≠ a := fun h => (List.nodup_cons.mp hnodup).1 (h ▸ hxs)
      have h1 : (x :: xs).filter (fun y => decide (y ≠ a)) =
          x :: xs.filter (fun y => decide (y ≠ a)) := by simp [hx]
      rw [h1]
      exact (List.Perm.swap x a _).trans
        (List.Perm.cons x (ih (List.nodup_cons.mp hnodup).2 hxs))

/-- The association-delete predicate of `remove_tag` is inequality with the
deleted pair. -/
theorem filter_pair_eq_filter_ne (fht : List (Nat × Nat)) (fid tid : Nat) :
    fht.filter (fun p => !(p.1 = fid && p.2 = tid)) =
      fht.filter (fun p => decide (p ≠ (fid, tid))) := by
  apply List.filter_congr
  rintro ⟨a, b⟩ _
  by_cases h1 : a = fid
  · by_cases h2 : b = tid
    · simp [h1, h2]
    · simp [h2]
  · simp [h1]

/-- Detach then re-attach of a held tag permutes the association table back
to the original (it re-appends the single deleted row). -/
theorem detach_attach_of_attached (db : DB) (fid tid : Nat) (X : String)
    (hnodup : db.file_has_tag.Nodup)
    (hg : get_tag_id db X = some tid)
    (hpair : (fid, tid) ∈ db.file_has_tag) :
    (set_tag (remove_tag db fid X) fid X).files = db.files ∧
    (set_tag (remove_tag db fid X) fid X).tags = db.tags ∧
    List.Perm (set_tag (remove_tag db fid X) fid X).file_has_tag
      db.file_has_tag := by
  have hrem := remove_tag_of_some db fid tid X hg
  have hg1 : get_tag_id
      { db with file_has_tag :=
          db.file_has_tag.filter (fun p => !(p.1 = fid && p.2 = tid)) } X =
      some tid := hg
  have hnot : (fid, tid) ∉
      db.file_has_tag.filter (fun p => !(p.1 = fid && p.2 = tid)) := by
    intro hin
    have := (List.mem_filter.mp hin).2
    simp at this
  rw [hrem, set_tag_of_some _ fid tid X hg1 hnot]
  refine ⟨rfl, rfl, ?_⟩
  dsimp
  rw [filter_pair_eq_filter_ne db.file_has_tag fid tid]
  exact (List.perm_append_singleton _ _).trans
    (cons_filter_ne_perm (fid, tid) db.file_has_tag hnodup hpair)

/-- Stores with the same tag table and the same association memberships give
every file the same tag-name set. -/
theorem fileTagNames_mem_congr (d1 d2 : DB) (ht : d1.tags = d2.tags)
    (hp : ∀ p : Nat × Nat, p ∈ d1.file_has_tag ↔ p ∈ d2.file_has_tag)
    (fid : Nat) (n : String) :
    n ∈ fileTagNames d1 fid ↔ n ∈ fileTagNames d2 fid := by
  rw [mem_fileTagNames_iff, mem_fileTagNames_iff, ht]
  constructor
  · rintro ⟨r, hr, hname, hpair⟩
    exact ⟨r, hr, hname, (hp _).mp hpair⟩
  · rintro ⟨r, hr, hname, hpair⟩
    exact ⟨r, hr, hname, (hp _).mpr hpair⟩

/-- Stores with the same tag table and permuted association tables report the
same usage counts. -/
theorem tag_usage_congr (d1 d2 : DB) (ht : d1.tags = d2.tags)
    (hp : List.Perm d1.file_has_tag d2.file_has_tag) (X : String) :
    tag_usage d1 X = tag_usage d2 X := by
  unfold tag_usage get_tag_id
  rw [ht]
  cases hfind : (d2.tags.find? (fun t => t.name = X)).map TagRow.id with
  | none => rfl
  | some tid =>
    dsimp
    rw [← List.countP_eq_length_filter, ← List.countP_eq_length_filter]
    exact hp.countP_eq _

/-- Attaching a tag the file does not hold adds exactly that name to the
file's tag set (fresh ids cannot collide with existing rows). -/
theorem mem_fileTagNames_set_tag_iff (db : DB) (fid : Nat) (X n : String)
    (htagids : (db.tags.map TagRow.id).Nodup)
    (hids : ∀ r ∈ db.tags, r.id < db.nextTagId)
    (hfresh : ∀ p ∈ db.file_has_tag, p.2 < db.nextTagId)
    (hnotatt : X ∉ fileTagNames db fid) :
    n ∈ fileTagNames (set_tag db fid X) fid ↔
      (n = X ∨ n ∈ fileTagNames db fid) := by
  cases hg : get_tag_id db X with
  | some tid =>
    obtain ⟨r, hr, hnameX, hidr⟩ := get_tag_id_row db X tid hg
    have hpair : (fid, tid) ∉ db.file_has_tag := by
      intro hin
      exact hnotatt ((mem_fileTagNames_iff _ _ _).mpr
        ⟨r, hr, hnameX, by rw [hidr]; exact hin⟩)
    rw [set_tag_of_some db fid tid X hg hpair]
    rw [mem_fileTagNames_iff, mem_fileTagNames_iff]
    constructor
    · rintro ⟨r', hr', hname', hpair'⟩
      rcases List.mem_append.mp hpair' with h | h
      · exact Or.inr ⟨r', hr', hname', h⟩
      · have hid' : r'.id = tid := by simpa using h
        have hrr : r' = r :=
          tag_rows_eq_of_id db r' r htagids hr' hr (by rw [hid', hidr])
        exact Or.inl (by rw [← hname', hrr, hnameX])
    · rintro (rfl | ⟨r', hr', hname', hpair'⟩)
      · exact ⟨r, hr, hnameX, List.mem_append_right _ (by rw [hidr]; simp)⟩
      · exact ⟨r', hr', hname', List.mem_append_left _ hpair'⟩
  | none =>
    rw [set_tag_of_none_fresh db fid X hg hfresh]
    rw [mem_fileTagNames_iff, mem_fileTagNames_iff]
    constructor
    · rintro ⟨r', hr', hname', hpair'⟩
      rcases List.mem_append.mp hr' with hrt | hrt
      · have hlt := hids r' hrt
        rcases List.mem_append.mp hpair' with h | h
        · exact Or.inr ⟨r', hrt, hname', h⟩
        · have : r'.id = db.nextTagId := by simpa using h
          exact absurd this (Nat.ne_of_lt hlt)
      · have hr'' : r' = ⟨db.nextTagId, X⟩ := by simpa using hrt
        exact Or.inl (by rw [← hname', hr''])
    · rintro (rfl | ⟨r', hr', hname', hpair'⟩)
      · exact ⟨⟨db.nextTagId, n⟩, List.mem_append_right _ (by simp), rfl,
          List.mem_append_right _ (by simp)⟩
      · exact ⟨r', List.mem_append_left _ hr', hname',
          List.mem_append_left _ hpair'⟩

/-- Attaching a tag the file does not hold increments its usage count by one
(auto-creating the tag counts from zero). -/
theorem tag_usage_set_tag_add_one (db : DB) (fid : Nat) (X : String)
    (hnotatt : X ∉ fileTagNames db fid)
    (hfresh : ∀ p ∈ db.file_has_tag, p.2 < db.nextTagId) :
    tag_usage (set_tag db fid X) X = tag_usage db X + 1 := by
  cases hg : get_tag_id db X with
  | some tid =>
    obtain ⟨r, hr, hnameX, hidr⟩ := get_tag_id_row db X tid hg
    have hpair : (fid, tid) ∉ db.file_has_tag := by
      intro hin
      exact hnotatt ((mem_fileTagNames_iff _ _ _).mpr
        ⟨r, hr, hnameX, by rw [hidr]; exact hin⟩)
    rw [set_tag_of_some db fid tid X hg hpair]
    have hg1 : get_tag_id
        { db with file_has_tag := db.file_has_tag ++ [(fid, tid)] } X =
        some tid := hg
    unfold tag_usage
    rw [hg1, hg]
    dsimp
    rw [List.filter_append]
    simp
  | none =>
    have hfindnone : db.tags.find? (fun t => decide (t.name = X)) = none := by
      unfold get_tag_id at hg
      exact Option.map_eq_none'.mp hg
    rw [set_tag_of_none_fresh db fid X hg hfresh]
    have hg2 : get_tag_id
        { db with tags := db.tags ++ [⟨db.nextTagId, X⟩],
                  nextTagId := db.nextTagId + 1,
                  file_has_tag := db.file_has_tag ++ [(fid, db.nextTagId)] } X =
        some db.nextTagId := by
      unfold get_tag_id
      dsimp
      rw [find_name_append db.tags X db.nextTagId hfindnone]
      rfl
    unfold tag_usage
    rw [hg2, hg]
    dsimp
    rw [List.filter_append]
    have hnil : db.file_has_tag.filter (fun p => decide (p.2 = db.nextTagId)) = [] := by
      rw [List.filter_eq_nil_iff]
      intro p hp
      simp [Nat.ne_of_lt (hfresh p hp)]
    rw [hnil]
    simp

/-- C9 counterexample: on a store where file 1 already carries the tag `Y`
and `X` does not exist, attach `X`, detach `X`, attach `X` leaves the
file's tag set as `{Y, X}` — not exactly `{X}` — and raises the usage count
of `X` from 0 to 1 rather than leaving it unchanged. -/
theorem attach_detach_attach_counterexample :
    tag_usage dbY "X" = 0 ∧
    tag_usage dbYSeq "X" = 1 ∧
    fileTagNames dbYSeq 1 = ["Y", "X"] ∧
    "Y" ∈ fileTagNames dbYSeq 1 ∧ "Y" ≠ "X" := by
  decide

/-- C9 (amended): `set_tag` is an idempotent attach and `remove_tag` an
idempotent detach, and on any store satisfying the schema invariants
(duplicate-free tag names, tag ids and associations; ids below the
AUTOINCREMENT counters) the sequence attach `X`, detach `X`, attach `X` on
a file is equivalent to a single attach: the file's tag set afterwards is
its original set together with `X`, and the usage count of `X` equals its
pre-sequence value when `X` was already attached to the file, and that
value plus one otherwise. -/
theorem attach_detach_attach_spec (db : DB) (fid : Nat) (X : String)
    (hnames : (db.tags.map TagRow.name).Nodup)
    (htagids : (db.tags.map TagRow.id).Nodup)
    (hids : ∀ r ∈ db.tags, r.id < db.nextTagId)
    (hfresh : ∀ p ∈ db.file_has_tag, p.2 < db.nextTagId)
    (hnodup : db.file_has_tag.Nodup) :
    (∀ n, n ∈ fileTagNames
        (set_tag (remove_tag (set_tag db fid X) fid X) fid X) fid ↔
      (n = X ∨ n ∈ fileTagNames db fid)) ∧
    tag_usage (set_tag (remove_tag (set_tag db fid X) fid X) fid X) X =
      tag_usage (set_tag db fid X) X ∧
    (X ∈ fileTagNames db fid → set_tag db fid X = db) ∧
    (X ∉ fileTagNames db fid →
      tag_usage (set_tag db fid X) X = tag_usage db X + 1) ∧
    remove_tag (remove_tag db fid X) fid X = remove_tag db fid X := by
  by_cases hatt : X ∈ fileTagNames db fid
  · have honce : set_tag db fid X = db := set_tag_of_attached db fid X hnames hatt
    obtain ⟨r, hr, hnameX, hpairr⟩ := (mem_fileTagNames_iff _ _ _).mp hatt
    have hg : get_tag_id db X = some r.id :=
      get_tag_id_eq_of_mem db X r hnames hr hnameX
    obtain ⟨hf, ht, hperm⟩ :=
      detach_attach_of_attached db fid r.id X hnodup hg hpairr
    refine ⟨?_, ?_, fun _ => honce, fun hne => absurd hatt hne,
      remove_tag_idem db fid X⟩
    · intro n
      rw [honce]
      rw [fileTagNames_mem_congr _ db ht (fun p => hperm.mem_iff) fid n]
      constructor
      · exact Or.inr
      · rintro (rfl | h)
        · exact hatt
        · exact h
    · rw [honce]
      exact tag_usage_congr _ db ht hperm X
  · have hfin := detach_attach_of_not_attached db fid X hatt hfresh
    refine ⟨?_, ?_, fun hin => absurd hin hatt,
      fun _ => tag_usage_set_tag_add_one db fid X hatt hfresh,
      remove_tag_idem db fid X⟩
    · intro n
      rw [hfin]
      exact mem_fileTagNames_set_tag_iff db fid X n htagids hids hfresh hatt
    · rw [hfin]

/-- Witness for `attach_detach_attach_spec` on the concrete store `dbY`. -/
theorem attach_detach_attach_spec_witness :
    tag_usage dbYSeq "X" = tag_usage (set_tag dbY 1 "X") "X" :=
  (attach_detach_attach_spec dbY 1 "X" (by decide) (by decide) (by decide)
    (by decide) (by decide)).2.1
